import Mathlib

/-!
Verification of the ironic-staging-drivers repository: a shallow embedding of
the Intel Node Manager command codec (ironic_staging_drivers/intel_nm/nm_commands.py)
and of the partitioning / memory / clean-step helpers of the Ansible deploy
driver (ironic_staging_drivers/ansible/deploy.py), together with theorems
settling the frozen claims about them.

Python exceptions raised by the embedded code paths are modelled by an explicit
error type; machine integers are Nat with explicit bounds where the Python
struct module enforces them.
-/

set_option maxRecDepth 20000

/-- Decidable equality for Except, needed to run decision procedures on
results of the embedded fallible operations. -/
instance {ε α : Type} [DecidableEq ε] [DecidableEq α] : DecidableEq (Except ε α) := fun a b =>
  match a, b with
  | .ok x, .ok y =>
    match decEq x y with
    | isTrue h => isTrue (h ▸ rfl)
    | isFalse h => isFalse (fun hh => h (Except.ok.inj hh))
  | .error x, .error y =>
    match decEq x y with
    | isTrue h => isTrue (h ▸ rfl)
    | isFalse h => isFalse (fun hh => h (Except.error.inj hh))
  | .ok _, .error _ => isFalse (fun hh => Except.noConfusion hh)
  | .error _, .ok _ => isFalse (fun hh => Except.noConfusion hh)

/-- The low-level Python exception classes that the codec's parsing code can
raise: IndexError (sequence indexing), struct.error (struct pack/unpack),
KeyError (dict lookup), ValueError (numeric conversion, bytearray range). -/
inductive LowError : Type
  | indexError
  | structError
  | keyError
  | valueError
deriving DecidableEq

/-- The three decode-failure kinds produced by the `_handle_parsing_error`
decorator: wrong length, corrupted data, unconvertible value. -/
inductive DecodeKind : Type
  | wrongLength
  | corrupted
  | unconvertible
deriving DecidableEq

/-- The mapping performed by the except clauses of `_handle_parsing_error`:
IndexError and struct.error become the wrong-length failure, KeyError the
corrupted failure, ValueError the unconvertible failure. -/
def kindOf : LowError → DecodeKind
  | .indexError => .wrongLength
  | .structError => .wrongLength
  | .keyError => .corrupted
  | .valueError => .unconvertible

/-- Models the `_handle_parsing_error` decorator wrapping a parse function. -/
def handle_parsing_error {α : Type} (f : List String → Except LowError α)
    (raw : List String) : Except DecodeKind α :=
  match f raw with
  | .ok a => .ok a
  | .error e => .error (kindOf e)

/-- Value of a hexadecimal digit character, upper or lower case. -/
def hexVal (c : Char) : Option Nat :=
  if '0' ≤ c ∧ c ≤ '9' then some (c.toNat - 48)
  else if 'a' ≤ c ∧ c ≤ 'f' then some (c.toNat - 87)
  else if 'A' ≤ c ∧ c ≤ 'F' then some (c.toNat - 55)
  else none

def parseHexDigitsAux : List Char → Nat → Option Nat
  | [], acc => some acc
  | c :: rest, acc =>
    match hexVal c with
    | some v => parseHexDigitsAux rest (acc * 16 + v)
    | none => none

/-- Models Python `int(x, 16)` on the codec's raw data strings: an optional
`0x`/`0X` prefix followed by a nonempty run of hex digits; anything else raises
ValueError.  (Python additionally strips whitespace and accepts a sign; the
codec's inputs are bare `0xNN` tokens, so those cases are not modelled.) -/
def int_base16 (s : String) : Except LowError Nat :=
  let cs :=
    match s.toList with
    | '0' :: 'x' :: rest => rest
    | '0' :: 'X' :: rest => rest
    | cs => cs
  match cs with
  | [] => .error .valueError
  | _ =>
    match parseHexDigitsAux cs 0 with
    | some n => .ok n
    | none => .error .valueError

/-- Models `_raw_to_int`: the list comprehension `[int(x, 16) for x in raw_data]`,
raising the first conversion error. -/
def raw_to_int : List String → Except LowError (List Nat)
  | [] => .ok []
  | s :: rest =>
    match int_base16 s with
    | .error e => .error e
    | .ok v =>
      match raw_to_int rest with
      | .error e => .error e
      | .ok vs => .ok (v :: vs)

/-- Upper-case hex digit character for a value below 16. -/
def hexDigitU (n : Nat) : Char :=
  if n < 10 then Char.ofNat (48 + n) else Char.ofNat (55 + n)

/-- Lower-case hex digit character for a value below 16. -/
def hexDigitL (n : Nat) : Char :=
  if n < 10 then Char.ofNat (48 + n) else Char.ofNat (87 + n)

/-- Upper-case hex digits of a number, most significant first; empty for 0.
The first argument is structural fuel, always called with fuel = n. -/
def hexCharsAux : Nat → Nat → List Char
  | 0, _ => []
  | _ + 1, 0 => []
  | fuel + 1, n + 1 => hexCharsAux fuel ((n + 1) / 16) ++ [hexDigitU ((n + 1) % 16)]

/-- Models `_hex`: the Python format `'0x{:02X}'.format(x)` — upper-case hex,
zero-padded to at least two digits. -/
def hex02X (n : Nat) : String :=
  let ds := hexCharsAux n n
  let ds := if ds.length < 2 then List.replicate (2 - ds.length) '0' ++ ds else ds
  "0x" ++ String.mk ds

/-- The two lower-case hex digit characters of one byte, as produced by
`binascii.hexlify`. -/
def byteHexL (n : Nat) : List Char :=
  [hexDigitL (n / 16 % 16), hexDigitL (n % 16)]

/-- Models `_hexarray` applied to packed bytes: each byte becomes the string
`'0x'` followed by its two lower-case hex digits. -/
def hexarray (bytes : List Nat) : List String :=
  bytes.map (fun b => "0x" ++ String.mk (byteHexL b))

/-- Models `raw_int[i]`: Python sequence indexing, raising IndexError when out
of range. -/
def list_item (l : List Nat) (i : Nat) : Except LowError Nat :=
  match l.get? i with
  | some v => .ok v
  | none => .error .indexError

/-- Models `bytearray(l)`: succeeds when every element is a byte value,
raises ValueError otherwise. -/
def to_bytes (l : List Nat) : Except LowError (List Nat) :=
  if l.all (fun b => b < 256) then .ok l else .error .valueError

/-- Little-endian bytes of a 16-bit value. -/
def le2 (n : Nat) : List Nat := [n % 256, n / 256 % 256]

/-- Little-endian bytes of a 32-bit value. -/
def le4 (n : Nat) : List Nat :=
  [n % 256, n / 256 % 256, n / 65536 % 256, n / 16777216 % 256]

/-- Models `struct.pack('<HIHH', a, b, c, d)`: raises struct.error when an
argument is out of range for its field, else the ten little-endian bytes. -/
def pack_HIHH (a b c d : Nat) : Except LowError (List Nat) :=
  if a < 65536 ∧ b < 4294967296 ∧ c < 65536 ∧ d < 65536 then
    .ok (le2 a ++ le4 b ++ le2 c ++ le2 d)
  else .error .structError

/-- 16-bit little-endian value from two consecutive bytes of a list. -/
def de2 (l : List Nat) (i : Nat) : Nat :=
  l.getD i 0 + 256 * l.getD (i + 1) 0

/-- 32-bit little-endian value from four consecutive bytes of a list. -/
def de4 (l : List Nat) (i : Nat) : Nat :=
  l.getD i 0 + 256 * l.getD (i + 1) 0 + 65536 * l.getD (i + 2) 0
    + 16777216 * l.getD (i + 3) 0

/-- Models `struct.unpack('<HIHH', bytes)`: requires exactly ten bytes. -/
def unpack_HIHH (l : List Nat) : Except LowError (Nat × Nat × Nat × Nat) :=
  if l.length = 10 then .ok (de2 l 0, de4 l 2, de2 l 6, de2 l 8)
  else .error .structError

/-- Models `struct.unpack('<HHIIHH', bytes)`: requires exactly sixteen bytes. -/
def unpack_HHIIHH (l : List Nat) : Except LowError (Nat × Nat × Nat × Nat × Nat × Nat) :=
  if l.length = 16 then
    .ok (de2 l 0, de2 l 2, de4 l 4, de4 l 8, de2 l 12, de2 l 14)
  else .error .structError

/-- The INTEL_NM_DOMAINS table. -/
def INTEL_NM_DOMAINS : List (String × Nat) :=
  [("platform", 0x00), ("cpu", 0x01), ("memory", 0x02), ("protection", 0x03), ("io", 0x04)]

/-- The INTEL_NM_TRIGGERS table. -/
def INTEL_NM_TRIGGERS : List (String × Nat) :=
  [("none", 0x00), ("temperature", 0x01), ("power", 0x02), ("reset", 0x03), ("boot", 0x04)]

/-- The INTEL_NM_CPU_CORRECTION table. -/
def INTEL_NM_CPU_CORRECTION : List (String × Nat) :=
  [("auto", 0x00), ("unagressive", 0x20), ("aggressive", 0x40)]

/-- The INTEL_NM_STORAGE table. -/
def INTEL_NM_STORAGE : List (String × Nat) :=
  [("persistent", 0x00), ("volatile", 0x80)]

/-- The INTEL_NM_ACTIONS table. -/
def INTEL_NM_ACTIONS : List (String × Nat) :=
  [("alert", 0x00), ("shutdown", 0x01)]

/-- The INTEL_NM_POWER_DOMAIN table. -/
def INTEL_NM_POWER_DOMAIN : List (String × Nat) :=
  [("primary", 0x00), ("secondary", 0x80)]

/-- The INTEL_NM_DAYS ordered table. -/
def INTEL_NM_DAYS : List (String × Nat) :=
  [("monday", 0x01), ("tuesday", 0x02), ("wednesday", 0x04), ("thursday", 0x08),
   ("friday", 0x10), ("saturday", 0x20), ("sunday", 0x40)]

/-- The VERSIONS table (byte to label). -/
def VERSIONS : List (Nat × String) :=
  [(0x01, "1.0"), (0x02, "1.5"), (0x03, "2.0"), (0x04, "2.5"), (0x05, "3.0")]

/-- The IPMI_VERSIONS table (byte to label). -/
def IPMI_VERSIONS : List (Nat × String) :=
  [(0x01, "1.0"), (0x02, "2.0"), (0x03, "3.0")]

/-- Models `TABLE[key]` on a name-to-code dict: KeyError when absent. -/
def table_get (t : List (String × Nat)) (k : String) : Except LowError Nat :=
  match t.find? (fun p => p.1 == k) with
  | some p => .ok p.2
  | none => .error .keyError

/-- Models `TABLE_REV[code]` on the reversed dict built by `_reverse_dict`:
KeyError when no table entry has the code (table values are distinct). -/
def rev_get (t : List (String × Nat)) (code : Nat) : Except LowError String :=
  match t.find? (fun p => p.2 == code) with
  | some p => .ok p.1
  | none => .error .keyError

/-- Models `d.get(code, 'unknown')` on the version tables. -/
def vers_get (t : List (Nat × String)) (code : Nat) : String :=
  match t.find? (fun p => p.1 == code) with
  | some p => p.2
  | none => "unknown"

/-- Models reading a dict key that the code may have defaulted earlier:
KeyError when the field is absent. -/
def field_get (o : Option String) : Except LowError String :=
  match o with
  | some s => .ok s
  | none => .error .keyError

/-- The polymorphic `target_limit` field: a plain integer power limit or the
structured boot-mode / cores-disabled pair. -/
inductive TargetLimit : Type
  | plain (n : Nat)
  | structured (boot_mode : String) (cores_disabled : Nat)
deriving DecidableEq

/-- The policy mapping passed to `set_policy`.  Keys the code reads
unconditionally are total fields; `cpu_power_correction` and `storage` may be
absent (the code fills defaults).  Numeric fields are naturals; the struct
module's range checks are modelled in `pack_HIHH`. -/
structure Policy : Type where
  domain_id : String
  policy_id : Nat
  enable : Bool
  policy_trigger : String
  cpu_power_correction : Option String
  storage : Option String
  action : String
  power_domain : String
  target_limit : TargetLimit
  correction_time : Nat
  trigger_limit : Nat
  reporting_period : Nat
deriving DecidableEq

/-- The in-place mutation `set_policy` performs on its argument before
building the command: default `cpu_power_correction` to 'auto', default
`storage` to 'persistent', and force `trigger_limit` to 0 when the trigger is
'none' or 'boot'. -/
def normalize_policy (p : Policy) : Policy :=
  { p with
    cpu_power_correction := some (p.cpu_power_correction.getD "auto")
    storage := some (p.storage.getD "persistent")
    trigger_limit :=
      if p.policy_trigger = "none" ∨ p.policy_trigger = "boot" then 0
      else p.trigger_limit }

/-- Byte 0 after the header in `set_policy`.  Python's conditional-expression
precedence makes the source line evaluate as
`(INTEL_NM_DOMAINS[domain_id] | 0x10) if enable else 0x00`, so when `enable`
is false the byte is 0x00 and the domain table is not even consulted. -/
def policy_byte0 (p : Policy) : Except LowError Nat :=
  if p.enable then
    match table_get INTEL_NM_DOMAINS p.domain_id with
    | .ok d => .ok (d ||| 0x10)
    | .error e => .error e
  else .ok 0x00

/-- Byte 2 after the header in `set_policy`: trigger code, cpu-correction
code, storage code and the policy-add flag 0x10 ORed together. -/
def policy_byte2 (p : Policy) : Except LowError Nat :=
  match table_get INTEL_NM_TRIGGERS p.policy_trigger with
  | .error e => .error e
  | .ok t =>
    match field_get p.cpu_power_correction with
    | .error e => .error e
    | .ok cs =>
      match table_get INTEL_NM_CPU_CORRECTION cs with
      | .error e => .error e
      | .ok c =>
        match field_get p.storage with
        | .error e => .error e
        | .ok ss =>
          match table_get INTEL_NM_STORAGE ss with
          | .error e => .error e
          | .ok s => .ok (t ||| c ||| s ||| 0x10)

/-- Byte 3 after the header in `set_policy`: action code ORed with the
power-domain code. -/
def policy_byte3 (p : Policy) : Except LowError Nat :=
  match table_get INTEL_NM_ACTIONS p.action with
  | .error e => .error e
  | .ok a =>
    match table_get INTEL_NM_POWER_DOMAIN p.power_domain with
    | .error e => .error e
    | .ok d => .ok (a ||| d)

/-- The 16-bit limit field: the raw integer target limit, or for the
structured form `boot_mode_bit | (cores_disabled << 1)`. -/
def policy_limit (p : Policy) : Nat :=
  match p.target_limit with
  | .plain n => n
  | .structured bm cd => (if bm = "power" then 0x00 else 0x01) ||| (cd <<< 1)

/-- The command list built by `set_policy` from the (already mutated) policy. -/
def build_set_policy (p : Policy) : Except LowError (List String) :=
  match policy_byte0 p with
  | .error e => .error e
  | .ok b0 =>
    match policy_byte2 p with
    | .error e => .error e
    | .ok b2 =>
      match policy_byte3 p with
      | .error e => .error e
      | .ok b3 =>
        match pack_HIHH (policy_limit p) p.correction_time p.trigger_limit
            p.reporting_period with
        | .error e => .error e
        | .ok packed =>
          .ok (["0x2E", "0xC1", "0x57", "0x01", "0x00"] ++
            [hex02X b0, hex02X p.policy_id, hex02X b2, hex02X b3] ++
            hexarray packed)

/-- Models `set_policy`: the first component is the state of the argument
dict after the call (the function mutates it in place), the second the
returned command data (or the exception raised while building it). -/
def set_policy (p : Policy) : Policy × Except LowError (List String) :=
  (normalize_policy p, build_set_policy (normalize_policy p))

/-- The mapping returned by `parse_policy`. -/
structure ParsedPolicy : Type where
  domain_id : String
  enabled : Bool
  per_domain_enabled : Bool
  global_enabled : Bool
  created_by_nm : Bool
  policy_trigger : String
  power_policy : Bool
  cpu_power_correction : String
  storage : String
  action : String
  power_domain : String
  target_limit : Nat
  correction_time : Nat
  trigger_limit : Nat
  reporting_period : Nat
deriving DecidableEq

/-- Models the body of `parse_policy` (before the decorator), following the
source's evaluation order for exceptions. -/
def parse_policy (raw : List String) : Except LowError ParsedPolicy :=
  match raw_to_int raw with
  | .error e => .error e
  | .ok ri =>
    match list_item ri 3 with
    | .error e => .error e
    | .ok b3 =>
      match rev_get INTEL_NM_DOMAINS (b3 &&& 0x0F) with
      | .error e => .error e
      | .ok dom =>
        match list_item ri 4 with
        | .error e => .error e
        | .ok b4 =>
          match rev_get INTEL_NM_TRIGGERS (b4 &&& 0x0F) with
          | .error e => .error e
          | .ok trig =>
            match rev_get INTEL_NM_CPU_CORRECTION (b4 &&& 0x60) with
            | .error e => .error e
            | .ok corr =>
              match rev_get INTEL_NM_STORAGE (b4 &&& 0x80) with
              | .error e => .error e
              | .ok stor =>
                match list_item ri 5 with
                | .error e => .error e
                | .ok b5 =>
                  match rev_get INTEL_NM_ACTIONS (b5 &&& 0x01) with
                  | .error e => .error e
                  | .ok act =>
                    match rev_get INTEL_NM_POWER_DOMAIN (b5 &&& 0x80) with
                    | .error e => .error e
                    | .ok pd =>
                      match to_bytes (ri.drop 6) with
                      | .error e => .error e
                      | .ok bys =>
                        match unpack_HIHH bys with
                        | .error e => .error e
                        | .ok (tl, ct, trl, rp) =>
                          .ok { domain_id := dom
                                enabled := (b3 &&& 0x10) != 0
                                per_domain_enabled := (b3 &&& 0x20) != 0
                                global_enabled := (b3 &&& 0x40) != 0
                                created_by_nm := !((b3 &&& 0x80) != 0)
                                policy_trigger := trig
                                power_policy := (b4 &&& 0x10) != 0
                                cpu_power_correction := corr
                                storage := stor
                                action := act
                                power_domain := pd
                                target_limit := tl
                                correction_time := ct
                                trigger_limit := trl
                                reporting_period := rp }

/-- Models `_days_compose`: fold the day bit flags together with bitwise OR,
raising KeyError on a day name not in the table. -/
def days_compose_aux (acc : Nat) : List String → Except LowError Nat
  | [] => .ok acc
  | d :: rest =>
    match table_get INTEL_NM_DAYS d with
    | .error e => .error e
    | .ok b => days_compose_aux (acc ||| b) rest

/-- Models `_days_compose` (pattern starts at 0). -/
def days_compose (days : List String) : Except LowError Nat :=
  days_compose_aux 0 days

/-- Models `_days_parse`: the days whose flag is set in the pattern, in the
order of the INTEL_NM_DAYS table. -/
def days_parse (pattern : Nat) : List String :=
  INTEL_NM_DAYS.filterMap (fun p => if pattern &&& p.2 ≠ 0 then some p.1 else none)

/-- One suspend period as returned by `parse_policy_suspend`. -/
structure SuspendPeriod : Type where
  start : Nat
  stop : Nat
  days : List String
deriving DecidableEq

/-- The loop body of `parse_policy_suspend` for period indices `num`,
`num+1`, ... below `count`. -/
def parse_suspend_loop (ri : List Nat) (count : Nat) : Nat → Except LowError (List SuspendPeriod)
  | num =>
    if _h : num < count then
      match list_item ri (num * 3 + 4) with
      | .error e => .error e
      | .ok s =>
        match list_item ri (num * 3 + 5) with
        | .error e => .error e
        | .ok e' =>
          match list_item ri (num * 3 + 6) with
          | .error e => .error e
          | .ok d =>
            match parse_suspend_loop ri count (num + 1) with
            | .error e => .error e
            | .ok rest => .ok ({ start := s, stop := e', days := days_parse d } :: rest)
    else .ok []
termination_by num => count - num

/-- Models the body of `parse_policy_suspend` (before the decorator). -/
def parse_policy_suspend (raw : List String) : Except LowError (List SuspendPeriod) :=
  match raw_to_int raw with
  | .error e => .error e
  | .ok ri =>
    match list_item ri 3 with
    | .error e => .error e
    | .ok n => parse_suspend_loop ri n 0

/-- The mapping returned by `parse_capabilities`. -/
structure Capabilities : Type where
  max_policies : Nat
  max_limit_value : Nat
  min_limit_value : Nat
  min_correction_time : Nat
  max_correction_time : Nat
  min_reporting_period : Nat
  max_reporting_period : Nat
  domain_id : String
  power_domain : String
deriving DecidableEq

/-- Models the body of `parse_capabilities` (before the decorator), following
the source's evaluation order for exceptions: index 3, then
`struct.unpack` of `bytearray(raw_int[4:20])`, then index 20 and the two
reverse table lookups. -/
def parse_capabilities (raw : List String) : Except LowError Capabilities :=
  match raw_to_int raw with
  | .error e => .error e
  | .ok ri =>
    match list_item ri 3 with
    | .error e => .error e
    | .ok maxp =>
      match to_bytes ((ri.drop 4).take 16) with
      | .error e => .error e
      | .ok bys =>
        match unpack_HHIIHH bys with
        | .error e => .error e
        | .ok (maxl, minl, minc, maxc, minr, maxr) =>
          match list_item ri 20 with
          | .error e => .error e
          | .ok b20 =>
            match rev_get INTEL_NM_DOMAINS (b20 &&& 0x0F) with
            | .error e => .error e
            | .ok dom =>
              match rev_get INTEL_NM_POWER_DOMAIN (b20 &&& 0x80) with
              | .error e => .error e
              | .ok pd =>
                .ok { max_policies := maxp
                      max_limit_value := maxl
                      min_limit_value := minl
                      min_correction_time := minc
                      max_correction_time := maxc
                      min_reporting_period := minr
                      max_reporting_period := maxr
                      domain_id := dom
                      power_domain := pd }

/-- The mapping returned by `parse_version`. -/
structure VersionInfo : Type where
  nm : String
  ipmi : String
  patch : String
  firmware : String
deriving DecidableEq

/-- Models the body of `parse_version` (before the decorator). -/
def parse_version (raw : List String) : Except LowError VersionInfo :=
  match raw_to_int raw with
  | .error e => .error e
  | .ok ri =>
    match list_item ri 3 with
    | .error e => .error e
    | .ok b3 =>
      match list_item ri 4 with
      | .error e => .error e
      | .ok b4 =>
        match list_item ri 5 with
        | .error e => .error e
        | .ok b5 =>
          match list_item ri 6 with
          | .error e => .error e
          | .ok b6 =>
            match list_item ri 7 with
            | .error e => .error e
            | .ok b7 =>
              .ok { nm := vers_get VERSIONS b3
                    ipmi := vers_get IPMI_VERSIONS b4
                    patch := toString b5
                    firmware := toString b6 ++ "." ++ toString b7 }

/-- Models `binascii.hexlify` on file content given as a byte list: the
lower-case hex character string, two characters per byte. -/
def hexlify : List Nat → List Char
  | [] => []
  | b :: rest => byteHexL b ++ hexlify rest

/-- Models Python `str.find` restricted to a successful result index:
the index of the first position where the needle is a prefix of the
remaining haystack, or none (Python returns -1). -/
def find_sub (needle : List Char) : List Char → Nat → Option Nat
  | [], i => if needle.isPrefixOf ([] : List Char) then some i else none
  | c :: t, i => if needle.isPrefixOf (c :: t) then some i else find_sub needle t (i + 1)

/-- The discovery-record marker `'5701000d01'` scanned for by
`parse_slave_and_channel`. -/
def oemMarker : List Char := ['5', '7', '0', '1', '0', '0', '0', 'd', '0', '1']

/-- The five bytes whose hexlify output is the marker. -/
def oemMarkerBytes : List Nat := [0x57, 0x01, 0x00, 0x0d, 0x01]

/-- Models `parse_slave_and_channel` on the dumped file's content (the bytes
read from the file).  `.ok none` is Python's implicit None return when the
marker is absent; `.error ()` is the uncaught IndexError raised by `ret[2]`
when fewer than three hex characters follow the match. -/
def parse_slave_and_channel (content : List Nat) : Except Unit (Option (String × String)) :=
  let s := hexlify content
  match find_sub oemMarker s 0 with
  | none => .ok none
  | some i =>
    let ret := (s.drop (i + 10)).take 4
    match ret.get? 2 with
    | none => .error ()
    | some c2 => .ok (some ("0x" ++ String.mk (ret.take 2), "0x0" ++ String.mk [c2]))

/-- A loosely typed instance_info value: integer, string or boolean. -/
inductive Val : Type
  | vint (n : Int)
  | vstr (s : String)
  | vbool (b : Bool)
deriving DecidableEq

/-- Models Python `int(x)` as used on instance_info disk sizes: integers pass
through, booleans coerce to 0/1, strings parse as optionally signed decimal
numerals (surrounding whitespace stripped), anything else raises ValueError. -/
def parseDecDigits : List Char → Option Nat
  | [] => none
  | cs =>
    cs.foldl (fun acc c =>
      match acc with
      | none => none
      | some n => if '0' ≤ c ∧ c ≤ '9' then some (n * 10 + (c.toNat - 48)) else none)
      (some 0)

def pyInt (v : Val) : Except Unit Int :=
  match v with
  | .vint n => .ok n
  | .vbool b => .ok (if b then 1 else 0)
  | .vstr s =>
    let cs := (s.toList.dropWhile (· = ' ')).reverse.dropWhile (· = ' ') |>.reverse
    match cs with
    | '-' :: rest =>
      match parseDecDigits rest with
      | some n => .ok (-(n : Int))
      | none => .error ()
    | '+' :: rest =>
      match parseDecDigits rest with
      | some n => .ok (n : Int)
      | none => .error ()
    | rest =>
      match parseDecDigits rest with
      | some n => .ok (n : Int)
      | none => .error ()

/-- Models `strutils.bool_from_string(value, strict=True)` (external oslo
utility, modelled from its documented strict behavior): booleans pass
through, other values are stringified, stripped and lower-cased and must be
one of the recognized true/false words, else ValueError. -/
def pyBoolStrict (v : Val) : Except Unit Bool :=
  match v with
  | .vbool b => .ok b
  | .vint n => if n = 1 then .ok true else if n = 0 then .ok false else .error ()
  | .vstr s =>
    let t := s.trim.toLower
    if t = "1" ∨ t = "t" ∨ t = "true" ∨ t = "on" ∨ t = "y" ∨ t = "yes" then .ok true
    else if t = "0" ∨ t = "f" ∨ t = "false" ∨ t = "off" ∨ t = "n" ∨ t = "no" then .ok false
    else .error ()

/-- The instance_info keys `_parse_partitioning_info` reads.  The
`configdrive` handling (an unrelated trailing step that writes a temp file)
is outside the claims and is not modelled; the relevant keys are below. -/
structure InstanceInfo : Type where
  root_gb : Option Val
  swap_mb : Option Val
  ephemeral_gb : Option Val
  ephemeral_format : Option String
  preserve_ephemeral : Option Val
deriving DecidableEq

/-- The errors surfaced by `_parse_partitioning_info`: MissingParameterValue
(the spec's MissingInput) and InvalidParameterValue (InvalidInput) carrying
the offending parameter name. -/
inductive DeployErr : Type
  | missingInput
  | invalidInput (param : String)
deriving DecidableEq

/-- One partition descriptor of the partition plan. -/
structure Partition : Type where
  name : String
  size_mib : Int
  boot : String
  swap : String
deriving DecidableEq

/-- The mapping returned by `_parse_partitioning_info` (the fields the claims
observe). -/
structure PartInfo : Type where
  ironic_partitions : List Partition
  ephemeral_format : Option String
  preserve_ephemeral : Option String
deriving DecidableEq

/-- Models `_parse_partitioning_info`.  `deploy_utils.check_for_missing_params`
is an external ironic helper; modelled from the spec: absence of `root_gb`
fails with MissingInput.  `defaultFmt` stands for the configured
`CONF.pxe.default_ephemeral_format`. -/
def parse_partitioning_info (defaultFmt : String) (info : InstanceInfo) :
    Except DeployErr PartInfo :=
  match info.root_gb with
  | none => .error .missingInput
  | some rootV =>
    match pyInt rootV with
    | .error _ => .error (.invalidInput "root_gb")
    | .ok rootI =>
      match pyInt (info.swap_mb.getD (.vint 0)) with
      | .error _ => .error (.invalidInput "swap_mb")
      | .ok swapI =>
        match pyInt (info.ephemeral_gb.getD (.vint 0)) with
        | .error _ => .error (.invalidInput "ephemeral_gb")
        | .ok ephI =>
          let parts : List Partition :=
            [{ name := "root", size_mib := 1024 * rootI, boot := "yes", swap := "no" }] ++
            (if swapI ≠ 0 then
              [{ name := "swap", size_mib := swapI, boot := "no", swap := "yes" }]
             else []) ++
            (if ephI ≠ 0 then
              [{ name := "ephemeral", size_mib := 1024 * ephI, boot := "no", swap := "no" }]
             else [])
          if ephI ≠ 0 then
            let fmt :=
              match info.ephemeral_format with
              | none => defaultFmt
              | some s => if s = "" then defaultFmt else s
            match pyBoolStrict (info.preserve_ephemeral.getD (.vbool false)) with
            | .error _ => .error (.invalidInput "preserve_ephemeral")
            | .ok b =>
              .ok { ironic_partitions := parts
                    ephemeral_format := some fmt
                    preserve_ephemeral := some (if b then "yes" else "no") }
          else
            .ok { ironic_partitions := parts
                  ephemeral_format := none
                  preserve_ephemeral := none }

/-- Models `_calculate_memory_req`: `int(image_size / units.Mi) + extra`.
Python 3 true division by the power of two 2^20 is exact for any image size
below 2^53 (the float significand width), where `int` truncation coincides
with floor division; the theorem carries that bound. -/
def calculate_memory_req (image_size : Nat) (extra_memory : Nat) : Nat :=
  image_size / 1048576 + extra_memory

/-- One entry of the clean-steps YAML list, with the keys `_get_clean_steps`
reads; every key access via `.get` is an Option here, the two bracket
accesses (`interface`, `priority`) raise KeyError when absent. -/
structure CleanEntry : Type where
  name : Option String
  interface : Option String
  priority : Option Int
  abortable : Option Bool
  argsinfo : Option String
  tags : Option (List String)
deriving DecidableEq

/-- One normalized clean step record. -/
structure CleanStep : Type where
  step : Option String
  priority : Int
  abortable : Bool
  argsinfo : Option String
  interface : String
  tags : List String
deriving DecidableEq

/-- Errors out of `_get_clean_steps`: NodeCleaningFailure from the wrapped
open/YAML-load region, or a raw KeyError from the entry loop. -/
inductive CleanErr : Type
  | cleaningFailed
  | keyError
deriving DecidableEq

/-- Association lookup for the override_priorities mapping (keys are the
entries' optional names). -/
def ovLookup (ov : List (Option String × Int)) (k : Option String) : Option Int :=
  match ov.find? (fun p => p.1 == k) with
  | some p => some p.2
  | none => none

/-- The continue-condition of the entry loop: `interface is not None and
interface != clean_if`. -/
def skip_entry (iface : Option String) (ci : String) : Bool :=
  match iface with
  | none => false
  | some f => f ≠ ci

/-- The entry-processing loop of `_get_clean_steps`, outside the wrapped
region: `params['interface']` and (when reached) `params['priority']` raise
KeyError when absent; entries not matching a requested interface are skipped
before their priority is touched. -/
def process_clean_steps (iface : Option String) (ov : List (Option String × Int)) :
    List CleanEntry → Except CleanErr (List CleanStep)
  | [] => .ok []
  | e :: rest =>
    match e.interface with
    | none => .error .keyError
    | some ci =>
      if skip_entry iface ci then
        process_clean_steps iface ov rest
      else
        match (match ovLookup ov e.name with
               | some v => Except.ok v
               | none =>
                 match e.priority with
                 | some v => Except.ok v
                 | none => Except.error CleanErr.keyError) with
        | .error err => .error err
        | .ok pr =>
          match process_clean_steps iface ov rest with
          | .error err => .error err
          | .ok rest' =>
            .ok ({ step := e.name
                   priority := pr
                   abortable := e.abortable.getD false
                   argsinfo := e.argsinfo
                   interface := ci
                   tags := e.tags.getD [] } :: rest')

/-- Models `_get_clean_steps`.  The file system and YAML loader are outside
the embedding; their combined outcome is the first argument: `.error` when
opening or parsing the clean-steps file raised (any exception in the wrapped
region), `.ok entries` for a successfully loaded list.  Only that wrapped
region is converted to NodeCleaningFailure. -/
def get_clean_steps (fileContent : Except Unit (List CleanEntry)) (iface : Option String)
    (ov : List (Option String × Int)) : Except CleanErr (List CleanStep) :=
  match fileContent with
  | .error _ => .error .cleaningFailed
  | .ok entries => process_clean_steps iface ov entries

/-- The bit flag of a day name in the INTEL_NM_DAYS table (0 if unknown);
used to describe `days_compose` on valid input. -/
def dayBit (d : String) : Nat :=
  ((INTEL_NM_DAYS.find? (fun p => p.1 == d)).map Prod.snd).getD 0

/-- Pure left fold of day bit flags, the value `days_compose_aux` computes on
valid day lists. -/
def orAllDays (acc : Nat) (l : List String) : Nat :=
  l.foldl (fun a d => a ||| dayBit d) acc

/-- Policy used to exhibit the enable-bit precedence behavior of `set_policy`:
a disabled policy on the cpu domain. -/
def c1Policy : Policy :=
  { domain_id := "cpu", policy_id := 0, enable := false, policy_trigger := "power",
    cpu_power_correction := some "auto", storage := some "persistent", action := "alert",
    power_domain := "primary", target_limit := .plain 100, correction_time := 1000,
    trigger_limit := 50, reporting_period := 10 }

/-- A fully valid enabled policy with a plain integer target limit. -/
def c2Policy : Policy :=
  { domain_id := "platform", policy_id := 5, enable := true, policy_trigger := "power",
    cpu_power_correction := some "auto", storage := some "persistent", action := "alert",
    power_domain := "primary", target_limit := .plain 100, correction_time := 1000,
    trigger_limit := 50, reporting_period := 10 }

/-- A policy whose trigger is 'none' with a nonzero trigger limit: `set_policy`
overwrites the limit in place. -/
def c4Policy : Policy :=
  { domain_id := "platform", policy_id := 1, enable := true, policy_trigger := "none",
    cpu_power_correction := none, storage := none, action := "alert",
    power_domain := "primary", target_limit := .plain 10, correction_time := 100,
    trigger_limit := 5, reporting_period := 1 }

/-- instance_info with all three disk sizes set. -/
def c5Info : InstanceInfo :=
  { root_gb := some (.vint 10), swap_mb := some (.vint 512), ephemeral_gb := some (.vint 5),
    ephemeral_format := none, preserve_ephemeral := none }

/-- instance_info with only the root size set. -/
def c5InfoRootOnly : InstanceInfo :=
  { root_gb := some (.vint 10), swap_mb := none, ephemeral_gb := none,
    ephemeral_format := none, preserve_ephemeral := none }

/-- instance_info with no root size at all. -/
def c6InfoMissing : InstanceInfo :=
  { root_gb := none, swap_mb := none, ephemeral_gb := none,
    ephemeral_format := none, preserve_ephemeral := none }

/-- instance_info whose root size is a non-numeric string. -/
def c6InfoBad : InstanceInfo :=
  { root_gb := some (.vstr "abc"), swap_mb := none, ephemeral_gb := none,
    ephemeral_format := none, preserve_ephemeral := none }

/-- A clean-step entry with an interface but no priority key. -/
def c10Entry : CleanEntry :=
  { name := some "a", interface := some "power", priority := none,
    abortable := none, argsinfo := none, tags := none }

/-- A 21-byte capabilities response whose byte 20 holds the domain nibble 0x05,
which no domain table entry carries. -/
def c3Corrupted : List String :=
  ["0x00", "0x00", "0x00", "0x02"] ++ List.replicate 16 "0x00" ++ ["0x05"]

/-! Helper lemmas about the embedded operations. -/

theorem table_get_ok_mem {t : List (String × Nat)} {k : String} {v : Nat}
    (h : table_get t k = .ok v) : (k, v) ∈ t := by
  unfold table_get at h
  cases hf : t.find? (fun q => q.1 == k) with
  | none => rw [hf] at h; exact absurd h (by simp)
  | some pr =>
    rw [hf] at h
    injection h with h2
    have hp := List.find?_some hf
    have hm := List.mem_of_find?_eq_some hf
    have hk : pr.1 = k := by simpa using hp
    have hpr : pr = (k, v) := by
      cases pr
      simp_all
    rw [hpr] at hm
    exact hm

/-- Claim C8: the computed memory requirement equals the floor of the image
size in bytes divided by 2^20, plus the configured extra-memory value; in
particular an image of exactly 2 * 2^20 bytes with extra_memory 10 gives 12.
The bound image_size < 2^53 marks the range where Python 3's float division
by 2^20 is exact and the model's floor division is faithful. -/
theorem claim_C8 (image_size extra : Nat) (_h : image_size < 2 ^ 53) :
    calculate_memory_req image_size extra = image_size / 2 ^ 20 + extra ∧
    calculate_memory_req (2 * 2 ^ 20) 10 = 12 := ⟨rfl, rfl⟩

theorem claim_C8_witness :
    2 * 2 ^ 20 < 2 ^ 53 ∧ calculate_memory_req (2 * 2 ^ 20) 10 = 2 * 2 ^ 20 / 2 ^ 20 + 10 :=
  ⟨by norm_num, (claim_C8 (2 * 2 ^ 20) 10 (by norm_num)).1⟩

/-- Claim C4 counterexample: `set_policy` applied to a policy whose trigger
is 'none' with trigger_limit 5 overwrites the argument's trigger_limit to 0,
so the input argument after the call differs from the input before it. -/
theorem claim_C4_counterexample :
    (set_policy c4Policy).1 ≠ c4Policy ∧
    (set_policy c4Policy).1.trigger_limit = 0 ∧ c4Policy.trigger_limit = 5 := by
  refine ⟨?_, rfl, rfl⟩
  decide

theorem normalize_policy_idem (p : Policy) :
    normalize_policy (normalize_policy p) = normalize_policy p := by
  unfold normalize_policy
  by_cases h : p.policy_trigger = "none" ∨ p.policy_trigger = "boot" <;>
    simp [h]

/-- Claim C4 (amended): `set_policy` is not free of side effects — it mutates
its policy argument in place (see the counterexample) — but the mutation is
idempotent: calling `set_policy` again on the mutated argument changes
nothing further and returns the identical command, so repeated calls with
identical inputs produce identical outputs. -/
theorem claim_C4 (p : Policy) :
    set_policy ((set_policy p).1) = set_policy p := by
  show (normalize_policy (normalize_policy p),
        build_set_policy (normalize_policy (normalize_policy p))) = _
  rw [normalize_policy_idem]
  rfl

/-- Claim C5: for instance_info whose root_gb, swap_mb, ephemeral_gb coerce
to integers (and whose preserve_ephemeral parses when needed), the partition
plan has the root partition of 1024 * root_gb MiB first, a swap partition of
swap_mb MiB exactly when swap_mb is nonzero, an ephemeral partition of
1024 * ephemeral_gb MiB exactly when ephemeral_gb is nonzero, in the order
root, swap, ephemeral; the ephemeral format falls back to the configured
default when unset or empty and is kept otherwise. -/
theorem claim_C5 (fmt : String) (info : InstanceInfo) (rootV : Val)
    (rootI swapI ephI : Int) (b : Bool)
    (hroot : info.root_gb = some rootV)
    (hrI : pyInt rootV = .ok rootI)
    (hsI : pyInt (info.swap_mb.getD (.vint 0)) = .ok swapI)
    (heI : pyInt (info.ephemeral_gb.getD (.vint 0)) = .ok ephI)
    (hpe : pyBoolStrict (info.preserve_ephemeral.getD (.vbool false)) = .ok b) :
    ∃ out, parse_partitioning_info fmt info = .ok out ∧
      out.ironic_partitions =
        [{ name := "root", size_mib := 1024 * rootI, boot := "yes", swap := "no" }] ++
        (if swapI ≠ 0 then
          [{ name := "swap", size_mib := swapI, boot := "no", swap := "yes" }] else []) ++
        (if ephI ≠ 0 then
          [{ name := "ephemeral", size_mib := 1024 * ephI, boot := "no", swap := "no" }]
         else []) ∧
      out.ironic_partitions.head? =
        some { name := "root", size_mib := 1024 * rootI, boot := "yes", swap := "no" } ∧
      ((∃ pt ∈ out.ironic_partitions, pt.name = "swap") ↔ swapI ≠ 0) ∧
      ((∃ pt ∈ out.ironic_partitions, pt.name = "ephemeral") ↔ ephI ≠ 0) ∧
      (ephI ≠ 0 → info.ephemeral_format = none ∨ info.ephemeral_format = some "" →
        out.ephemeral_format = some fmt) ∧
      (ephI ≠ 0 → ∀ s, info.ephemeral_format = some s → s ≠ "" →
        out.ephemeral_format = some s) := by
  simp only [parse_partitioning_info, hroot, hrI, hsI, heI, hpe]
  by_cases he : ephI = 0 <;> by_cases hs : swapI = 0 <;>
    rcases hfmt : info.ephemeral_format with _ | s <;>
    simp_all

theorem claim_C5_witness :
    ∃ out, parse_partitioning_info "ext4" c5Info = .ok out ∧
      out.ironic_partitions =
        [{ name := "root", size_mib := 1024 * 10, boot := "yes", swap := "no" }] ++
        (if (512 : Int) ≠ 0 then
          [{ name := "swap", size_mib := 512, boot := "no", swap := "yes" }] else []) ++
        (if (5 : Int) ≠ 0 then
          [{ name := "ephemeral", size_mib := 1024 * 5, boot := "no", swap := "no" }]
         else []) ∧
      out.ironic_partitions.head? =
        some { name := "root", size_mib := 1024 * 10, boot := "yes", swap := "no" } ∧
      ((∃ pt ∈ out.ironic_partitions, pt.name = "swap") ↔ (512 : Int) ≠ 0) ∧
      ((∃ pt ∈ out.ironic_partitions, pt.name = "ephemeral") ↔ (5 : Int) ≠ 0) ∧
      ((5 : Int) ≠ 0 → c5Info.ephemeral_format = none ∨ c5Info.ephemeral_format = some "" →
        out.ephemeral_format = some "ext4") ∧
      ((5 : Int) ≠ 0 → ∀ s, c5Info.ephemeral_format = some s → s ≠ "" →
        out.ephemeral_format = some s) :=
  claim_C5 "ext4" c5Info (.vint 10) 10 512 5 false rfl rfl rfl rfl rfl

/-- Claim C6: `_parse_partitioning_info` fails with MissingInput when
root_gb is absent (returning no partial plan), and fails with InvalidInput
naming the offending field when root_gb, swap_mb or ephemeral_gb cannot be
coerced to an integer. -/
theorem claim_C6 :
    (∀ fmt info, info.root_gb = none →
        parse_partitioning_info fmt info = .error .missingInput) ∧
    (∀ fmt info v, info.root_gb = some v → pyInt v = .error () →
        parse_partitioning_info fmt info = .error (.invalidInput "root_gb")) ∧
    (∀ fmt info v rootI, info.root_gb = some v → pyInt v = .ok rootI →
        pyInt (info.swap_mb.getD (.vint 0)) = .error () →
        parse_partitioning_info fmt info = .error (.invalidInput "swap_mb")) ∧
    (∀ fmt info v rootI swapI, info.root_gb = some v → pyInt v = .ok rootI →
        pyInt (info.swap_mb.getD (.vint 0)) = .ok swapI →
        pyInt (info.ephemeral_gb.getD (.vint 0)) = .error () →
        parse_partitioning_info fmt info = .error (.invalidInput "ephemeral_gb")) := by
  refine ⟨?_, ?_, ?_, ?_⟩
  · intro fmt info h
    simp [parse_partitioning_info, h]
  · intro fmt info v h hv
    simp [parse_partitioning_info, h, hv]
  · intro fmt info v rootI h hv hs
    simp [parse_partitioning_info, h, hv, hs]
  · intro fmt info v rootI swapI h hv hs he
    simp [parse_partitioning_info, h, hv, hs, he]

theorem claim_C6_witness :
    parse_partitioning_info "ext4" c6InfoMissing = .error .missingInput ∧
    parse_partitioning_info "ext4" c6InfoBad = .error (.invalidInput "root_gb") :=
  ⟨claim_C6.1 "ext4" c6InfoMissing rfl,
   claim_C6.2.1 "ext4" c6InfoBad (.vstr "abc") rfl rfl⟩

theorem process_clean_steps_not_cleaningFailed (iface : Option String)
    (ov : List (Option String × Int)) (entries : List CleanEntry) :
    process_clean_steps iface ov entries ≠ .error .cleaningFailed := by
  induction entries with
  | nil => simp [process_clean_steps]
  | cons e rest ih =>
    unfold process_clean_steps
    cases e.interface with
    | none => simp
    | some ci =>
      simp only
      by_cases hf : skip_entry iface ci = true
      · rw [if_pos hf]; exact ih
      · rw [if_neg hf]
        cases ovLookup ov e.name with
        | some v =>
          simp only
          cases hrest : process_clean_steps iface ov rest with
          | error err =>
            rw [hrest] at ih
            simp_all
          | ok l => simp
        | none =>
          cases e.priority with
          | none => simp
          | some v =>
            simp only
            cases hrest : process_clean_steps iface ov rest with
            | error err =>
              rw [hrest] at ih
              simp_all
            | ok l => simp

theorem process_clean_steps_missing_interface (iface : Option String)
    (ov : List (Option String × Int)) (entries : List CleanEntry) (e : CleanEntry)
    (hmem : e ∈ entries) (hnone : e.interface = none) :
    process_clean_steps iface ov entries = .error .keyError := by
  induction entries with
  | nil => cases hmem
  | cons e0 rest ih =>
    rcases List.mem_cons.mp hmem with rfl | hmem'
    · unfold process_clean_steps
      rw [hnone]
    · unfold process_clean_steps
      cases e0.interface with
      | none => rfl
      | some ci =>
        simp only
        by_cases hf : skip_entry iface ci = true
        · rw [if_pos hf]; exact ih hmem'
        · rw [if_neg hf]
          cases ovLookup ov e0.name with
          | some v => simp only; rw [ih hmem']
          | none =>
            cases e0.priority with
            | none => rfl
            | some v => simp only; rw [ih hmem']

theorem process_clean_steps_missing_priority (iface : Option String)
    (ov : List (Option String × Int)) (entries : List CleanEntry) (e : CleanEntry) (ci : String)
    (hmem : e ∈ entries) (hci : e.interface = some ci)
    (hkeep : iface = none ∨ iface = some ci)
    (hov : ovLookup ov e.name = none) (hpr : e.priority = none) :
    process_clean_steps iface ov entries = .error .keyError := by
  induction entries with
  | nil => cases hmem
  | cons e0 rest ih =>
    rcases List.mem_cons.mp hmem with rfl | hmem'
    · unfold process_clean_steps
      rw [hci]
      simp only
      have hf : skip_entry iface ci = false := by
        rcases hkeep with rfl | rfl <;> simp [skip_entry]
      rw [hf]
      simp [hov, hpr]
    · unfold process_clean_steps
      cases e0.interface with
      | none => rfl
      | some ci0 =>
        simp only
        by_cases hf : skip_entry iface ci0 = true
        · rw [if_pos hf]; exact ih hmem'
        · rw [if_neg hf]
          cases ovLookup ov e0.name with
          | some v => simp only; rw [ih hmem']
          | none =>
            cases e0.priority with
            | none => rfl
            | some v => simp only; rw [ih hmem']

/-- Claim C10 counterexample: a successfully parsed file containing an entry
that lacks the 'priority' key does not raise when the entry is filtered out
by the interface argument — the call returns an empty step list instead of a
KeyError, so the claim as stated fails. -/
theorem claim_C10_counterexample :
    get_clean_steps (.ok [c10Entry]) (some "deploy") [] = .ok [] ∧
    c10Entry.priority = none ∧ c10Entry.interface = some "power" := by
  refine ⟨?_, rfl, rfl⟩
  decide

/-- Claim C10 (amended): only failure of the open/YAML-load region becomes
CleaningFailed and a parsed file never does; an entry missing 'interface'
always raises a raw KeyError; an entry missing 'priority' raises a raw
KeyError when it passes the interface filter and has no override priority
(in particular always under the default arguments); a filtered-out entry's
missing priority does not raise. -/
theorem claim_C10 :
    (∀ iface ov, get_clean_steps (.error ()) iface ov = .error .cleaningFailed) ∧
    (∀ entries iface ov,
        get_clean_steps (.ok entries) iface ov ≠ .error .cleaningFailed) ∧
    (∀ entries iface ov e, e ∈ entries → e.interface = none →
        get_clean_steps (.ok entries) iface ov = .error .keyError) ∧
    (∀ entries iface ov e ci, e ∈ entries → e.interface = some ci →
        (iface = none ∨ iface = some ci) → ovLookup ov e.name = none →
        e.priority = none →
        get_clean_steps (.ok entries) iface ov = .error .keyError) := by
  refine ⟨fun iface ov => rfl, ?_, ?_, ?_⟩
  · intro entries iface ov
    exact process_clean_steps_not_cleaningFailed iface ov entries
  · intro entries iface ov e hmem hnone
    exact process_clean_steps_missing_interface iface ov entries e hmem hnone
  · intro entries iface ov e ci hmem hci hkeep hov hpr
    exact process_clean_steps_missing_priority iface ov entries e ci hmem hci hkeep hov hpr

theorem claim_C10_witness :
    get_clean_steps (.ok [c10Entry]) none [] = .error .keyError :=
  claim_C10.2.2.2 [c10Entry] none [] c10Entry "power" (by decide) rfl (Or.inl rfl) rfl rfl

theorem hexlify_append (a b : List Nat) :
    hexlify (a ++ b) = hexlify a ++ hexlify b := by
  induction a with
  | nil => rfl
  | cons x t ih => simp [hexlify, ih]

theorem hexlify_length (l : List Nat) : (hexlify l).length = 2 * l.length := by
  induction l with
  | nil => rfl
  | cons x t ih => simp [hexlify, byteHexL, ih]; omega

/-- Claim C9 (amended): when the hex prefix 5701000d01 does not occur in the
hexlified content the caller receives no result and nothing is raised; when
it first occurs byte-aligned and at least a byte and a half follows, the
result pairs the two lower-case hex digits of the byte after the prefix with
'0x0' plus the high-nibble digit of the next byte (so prefix then 0xAB 0xCD
yields 0xab and 0x0c); but a match truncated before the channel nibble
raises an unwrapped IndexError (see the counterexample). -/
theorem claim_C9 :
    (∀ content, find_sub oemMarker (hexlify content) 0 = none →
        parse_slave_and_channel content = .ok none) ∧
    (∀ pre b1 b2 rest, b1 < 256 → b2 < 256 →
        find_sub oemMarker (hexlify (pre ++ oemMarkerBytes ++ b1 :: b2 :: rest)) 0 =
          some (2 * pre.length) →
        parse_slave_and_channel (pre ++ oemMarkerBytes ++ b1 :: b2 :: rest) =
          .ok (some ("0x" ++ String.mk (byteHexL b1),
                     "0x0" ++ String.mk [hexDigitL (b2 / 16)]))) ∧
    parse_slave_and_channel (oemMarkerBytes ++ [0xAB, 0xCD]) =
      .ok (some ("0xab", "0x0c")) := by
  refine ⟨?_, ?_, by decide⟩
  · intro content h
    simp only [parse_slave_and_channel, h]
  · intro pre b1 b2 rest hb1 hb2 hfind
    simp only [parse_slave_and_channel, hfind]
    have hdrop : (hexlify (pre ++ oemMarkerBytes ++ b1 :: b2 :: rest)).drop
        (2 * pre.length + 10) = byteHexL b1 ++ byteHexL b2 ++ hexlify rest := by
      rw [hexlify_append, hexlify_append]
      have h1 : 2 * pre.length + 10 =
          (hexlify pre).length + ((hexlify oemMarkerBytes).length + 0) := by
        rw [hexlify_length]
        rfl
      rw [h1, List.append_assoc, List.drop_append, List.drop_append]
      show hexlify (b1 :: b2 :: rest) = _
      show byteHexL b1 ++ hexlify (b2 :: rest) = _
      show byteHexL b1 ++ (byteHexL b2 ++ hexlify rest) = _
      rw [List.append_assoc]
    rw [hdrop]
    have hb1d : b1 / 16 % 16 = b1 / 16 := Nat.mod_eq_of_lt (by omega)
    have hb2d : b2 / 16 % 16 = b2 / 16 := Nat.mod_eq_of_lt (by omega)
    simp only [byteHexL]
    simp only [List.cons_append, List.nil_append]
    simp [hb2d]

/-- Claim C9 counterexample: a file that ends right after the slave-address
byte contains the prefix, yet `parse_slave_and_channel` raises an IndexError
instead of returning a pair, contradicting the claim as stated. -/
theorem claim_C9_counterexample :
    find_sub oemMarker (hexlify (oemMarkerBytes ++ [0xAB])) 0 = some 0 ∧
    parse_slave_and_channel (oemMarkerBytes ++ [0xAB]) = .error () := by
  constructor <;> decide

theorem claim_C9_witness :
    parse_slave_and_channel (([] : List Nat) ++ oemMarkerBytes ++ 0xAB :: 0xCD :: []) =
      .ok (some ("0x" ++ String.mk (byteHexL 0xAB),
                 "0x0" ++ String.mk [hexDigitL (0xCD / 16)])) :=
  claim_C9.2.1 [] 0xAB 0xCD [] (by decide) (by decide) (by decide)

theorem handle_parsing_error_spec {α : Type} (f : List String → Except LowError α)
    (raw : List String) (k : DecodeKind) (h : handle_parsing_error f raw = .error k) :
    ∃ e, f raw = .error e ∧ kindOf e = k := by
  unfold handle_parsing_error at h
  cases hf : f raw with
  | ok a => rw [hf] at h; exact absurd h (by simp)
  | error e =>
    rw [hf] at h
    injection h with h2
    exact ⟨e, rfl, h2⟩

/-- Claim C3: every failure of a wrapped parse operation (parse_policy,
parse_policy_suspend, parse_capabilities, parse_version) surfaces as a
decode failure obtained from the underlying low-level fault through the
fixed mapping — indexing or struct-unpacking faults become the wrong-length
kind, unknown-code lookups the corrupted kind, numeric-conversion faults the
unconvertible kind — and never as a raw fault; concretely on
parse_capabilities: truncated data gives wrong length, an unknown domain
nibble gives corrupted, a non-hex byte string gives unconvertible. -/
theorem claim_C3 :
    (∀ raw k, handle_parsing_error parse_policy raw = .error k →
        ∃ e, parse_policy raw = .error e ∧ kindOf e = k) ∧
    (∀ raw k, handle_parsing_error parse_policy_suspend raw = .error k →
        ∃ e, parse_policy_suspend raw = .error e ∧ kindOf e = k) ∧
    (∀ raw k, handle_parsing_error parse_capabilities raw = .error k →
        ∃ e, parse_capabilities raw = .error e ∧ kindOf e = k) ∧
    (∀ raw k, handle_parsing_error parse_version raw = .error k →
        ∃ e, parse_version raw = .error e ∧ kindOf e = k) ∧
    handle_parsing_error parse_capabilities ["0x00"] = .error .wrongLength ∧
    handle_parsing_error parse_capabilities c3Corrupted = .error .corrupted ∧
    handle_parsing_error parse_capabilities ["0xZZ"] = .error .unconvertible :=
  ⟨fun raw k h => handle_parsing_error_spec parse_policy raw k h,
   fun raw k h => handle_parsing_error_spec parse_policy_suspend raw k h,
   fun raw k h => handle_parsing_error_spec parse_capabilities raw k h,
   fun raw k h => handle_parsing_error_spec parse_version raw k h,
   by decide, by decide, by decide⟩

theorem claim_C3_witness :
    (∃ e, parse_capabilities ["0x00"] = .error e ∧ kindOf e = .wrongLength) ∧
    (∃ e, parse_capabilities c3Corrupted = .error e ∧ kindOf e = .corrupted) ∧
    (∃ e, parse_capabilities ["0xZZ"] = .error e ∧ kindOf e = .unconvertible) :=
  ⟨claim_C3.2.2.1 ["0x00"] .wrongLength (by decide),
   claim_C3.2.2.1 c3Corrupted .corrupted (by decide),
   claim_C3.2.2.1 ["0xZZ"] .unconvertible (by decide)⟩

theorem land_pow_ne_zero (x k : Nat) : (x &&& 2 ^ k ≠ 0) ↔ x.testBit k = true := by
  rw [Nat.and_two_pow]
  cases htb : x.testBit k <;> simp [htb]

theorem lor_and_pow (x y k : Nat) :
    ((x ||| y) &&& 2 ^ k ≠ 0) ↔ (x &&& 2 ^ k ≠ 0 ∨ y &&& 2 ^ k ≠ 0) := by
  simp [land_pow_ne_zero, Nat.testBit_lor]

theorem lor_and_bit1 (x y : Nat) : ((x ||| y) &&& 1 ≠ 0) ↔ (x &&& 1 ≠ 0 ∨ y &&& 1 ≠ 0) :=
  lor_and_pow x y 0

theorem lor_and_bit2 (x y : Nat) : ((x ||| y) &&& 2 ≠ 0) ↔ (x &&& 2 ≠ 0 ∨ y &&& 2 ≠ 0) := by
  simpa using lor_and_pow x y 1

theorem lor_and_bit4 (x y : Nat) : ((x ||| y) &&& 4 ≠ 0) ↔ (x &&& 4 ≠ 0 ∨ y &&& 4 ≠ 0) := by
  simpa using lor_and_pow x y 2

theorem lor_and_bit8 (x y : Nat) : ((x ||| y) &&& 8 ≠ 0) ↔ (x &&& 8 ≠ 0 ∨ y &&& 8 ≠ 0) := by
  simpa using lor_and_pow x y 3

theorem lor_and_bit16 (x y : Nat) : ((x ||| y) &&& 16 ≠ 0) ↔ (x &&& 16 ≠ 0 ∨ y &&& 16 ≠ 0) := by
  simpa using lor_and_pow x y 4

theorem lor_and_bit32 (x y : Nat) : ((x ||| y) &&& 32 ≠ 0) ↔ (x &&& 32 ≠ 0 ∨ y &&& 32 ≠ 0) := by
  simpa using lor_and_pow x y 5

theorem lor_and_bit64 (x y : Nat) : ((x ||| y) &&& 64 ≠ 0) ↔ (x &&& 64 ≠ 0 ∨ y &&& 64 ≠ 0) := by
  simpa using lor_and_pow x y 6

theorem orAllDays_cons (acc : Nat) (d : String) (l : List String) :
    orAllDays acc (d :: l) = orAllDays (acc ||| dayBit d) l := rfl

theorem days_compose_aux_eq (l : List String) :
    ∀ acc, (∀ d ∈ l, d ∈ INTEL_NM_DAYS.map Prod.fst) →
      days_compose_aux acc l = .ok (orAllDays acc l) := by
  induction l with
  | nil => intro acc _; rfl
  | cons d t ih =>
    intro acc hv
    have hd := hv d (by simp)
    have htg : table_get INTEL_NM_DAYS d = .ok (dayBit d) := by
      simp [INTEL_NM_DAYS] at hd
      rcases hd with rfl | rfl | rfl | rfl | rfl | rfl | rfl <;> rfl
    unfold days_compose_aux
    rw [htg, orAllDays_cons]
    exact ih (acc ||| dayBit d) (fun x hx => hv x (by simp [hx]))

theorem orAllDays_bit (d0 : String) (b0 : Nat) (hmem : (d0, b0) ∈ INTEL_NM_DAYS) :
    ∀ (l : List String), (∀ d ∈ l, d ∈ INTEL_NM_DAYS.map Prod.fst) → ∀ acc,
      ((orAllDays acc l) &&& b0 ≠ 0 ↔ (acc &&& b0 ≠ 0 ∨ d0 ∈ l)) := by
  intro l
  induction l with
  | nil => intro _ acc; simp [orAllDays]
  | cons d t ih =>
    intro hv acc
    have hd := hv d (by simp)
    rw [orAllDays_cons, ih (fun x hx => hv x (by simp [hx])) (acc ||| dayBit d)]
    have key : ((acc ||| dayBit d) &&& b0 ≠ 0) ↔ (acc &&& b0 ≠ 0 ∨ d = d0) := by
      simp only [INTEL_NM_DAYS, List.map_cons, List.map_nil, List.mem_cons,
        List.not_mem_nil, or_false, List.mem_singleton] at hd
      simp only [INTEL_NM_DAYS, List.mem_cons, List.not_mem_nil, or_false,
        Prod.mk.injEq, List.mem_singleton] at hmem
      rcases hmem with ⟨rfl, rfl⟩ | ⟨rfl, rfl⟩ | ⟨rfl, rfl⟩ | ⟨rfl, rfl⟩ |
        ⟨rfl, rfl⟩ | ⟨rfl, rfl⟩ | ⟨rfl, rfl⟩ <;>
        rcases hd with rfl | rfl | rfl | rfl | rfl | rfl | rfl <;>
        · simp only [lor_and_bit1, lor_and_bit2, lor_and_bit4, lor_and_bit8,
            lor_and_bit16, lor_and_bit32, lor_and_bit64]
          exact or_congr Iff.rfl (by decide)
    rw [key]
    simp only [List.mem_cons]
    constructor
    · rintro ((h | h) | h)
      · exact Or.inl h
      · exact Or.inr (Or.inl h.symm)
      · exact Or.inr (Or.inr h)
    · rintro (h | h | h)
      · exact Or.inl (Or.inl h)
      · exact Or.inl (Or.inr h.symm)
      · exact Or.inr h

theorem filterMap_bits_eq_filter (p : Nat) (l : List String) (tbl : List (String × Nat))
    (hiff : ∀ pr ∈ tbl, (p &&& pr.2 ≠ 0 ↔ pr.1 ∈ l)) :
    tbl.filterMap (fun q => if p &&& q.2 ≠ 0 then some q.1 else none) =
      (tbl.map Prod.fst).filter (fun d => d ∈ l) := by
  induction tbl with
  | nil => rfl
  | cons q t ih =>
    have hq := hiff q (by simp)
    have ht : ∀ pr ∈ t, (p &&& pr.2 ≠ 0 ↔ pr.1 ∈ l) :=
      fun pr hm => hiff pr (by simp [hm])
    simp only [List.filterMap_cons, List.map_cons, List.filter_cons]
    by_cases hm : q.1 ∈ l
    · rw [if_pos (hq.mpr hm)]
      show q.1 :: List.filterMap _ t = _
      rw [ih ht]
      simp [hm]
    · rw [if_neg (fun hc => hm (hq.mp hc))]
      show List.filterMap _ t = _
      rw [ih ht]
      simp [hm]

theorem days_parse_orAllDays (l : List String)
    (hv : ∀ d ∈ l, d ∈ INTEL_NM_DAYS.map Prod.fst) :
    days_parse (orAllDays 0 l) =
      (INTEL_NM_DAYS.map Prod.fst).filter (fun d => d ∈ l) := by
  apply filterMap_bits_eq_filter
  intro pr hm
  have := orAllDays_bit pr.1 pr.2 (by simpa using hm) l hv 0
  simpa [Nat.zero_and] using this

/-- Claim C7: composing {monday, friday} gives 0x11 in either input order;
decomposing 0x11 gives [monday, friday]; and in general decomposing the
composition of any list of valid days yields exactly the days of that list
in the fixed table order monday through sunday, regardless of input order. -/
theorem claim_C7 :
    days_compose ["monday", "friday"] = .ok 0x11 ∧
    days_compose ["friday", "monday"] = .ok 0x11 ∧
    days_parse 0x11 = ["monday", "friday"] ∧
    (∀ l : List String, (∀ d ∈ l, d ∈ INTEL_NM_DAYS.map Prod.fst) →
      ∃ p, days_compose l = .ok p ∧
        days_parse p = (INTEL_NM_DAYS.map Prod.fst).filter (fun d => d ∈ l)) := by
  refine ⟨by decide, by decide, by decide, ?_⟩
  intro l hv
  exact ⟨orAllDays 0 l, days_compose_aux_eq l 0 hv, days_parse_orAllDays l hv⟩

theorem claim_C7_witness :
    ∃ p, days_compose ["friday", "monday", "friday"] = .ok p ∧
      days_parse p = (INTEL_NM_DAYS.map Prod.fst).filter
        (fun d => d ∈ ["friday", "monday", "friday"]) :=
  claim_C7.2.2.2 ["friday", "monday", "friday"] (by decide)

/-- Claim C1 counterexample: for a disabled policy on the cpu domain the
byte after the 5-element header is '0x00', not the domain code 0x01 — the
Python conditional-expression precedence drops the domain code whenever
enable is false, so the claim as stated fails. -/
theorem claim_C1_counterexample :
    (set_policy c1Policy).2.toOption.bind (fun c => c.get? 5) = some "0x00" ∧
    table_get INTEL_NM_DOMAINS c1Policy.domain_id = .ok 0x01 ∧
    c1Policy.enable = false ∧
    some "0x00" ≠ some (hex02X 0x01) := by
  refine ⟨by decide, by decide, rfl, by decide⟩

/-- Claim C1 (amended): the first byte after the fixed 5-element header of
set_policy is the domain code with bit 0x10 set when enable is true, but it
is 0x00 — not the domain code — when enable is false. -/
theorem claim_C1 :
    (∀ p cmd, p.enable = false → (set_policy p).2 = .ok cmd →
        cmd.get? 5 = some "0x00") ∧
    (∀ p cmd dom, p.enable = true →
        table_get INTEL_NM_DOMAINS p.domain_id = .ok dom →
        (set_policy p).2 = .ok cmd →
        cmd.get? 5 = some (hex02X (dom ||| 0x10))) := by
  constructor
  · intro p cmd hen h
    unfold set_policy build_set_policy at h
    rw [show policy_byte0 (normalize_policy p) = .ok 0x00 from by
      simp [policy_byte0, normalize_policy, hen]] at h
    cases h2 : policy_byte2 (normalize_policy p) with
    | error e => rw [h2] at h; exact absurd h (by simp)
    | ok b2 =>
      rw [h2] at h
      cases h3 : policy_byte3 (normalize_policy p) with
      | error e => rw [h3] at h; exact absurd h (by simp)
      | ok b3 =>
        rw [h3] at h
        cases h4 : pack_HIHH (policy_limit (normalize_policy p))
            (normalize_policy p).correction_time (normalize_policy p).trigger_limit
            (normalize_policy p).reporting_period with
        | error e => rw [h4] at h; exact absurd h (by simp)
        | ok packed =>
          rw [h4] at h
          injection h with h5
          subst h5
          rfl
  · intro p cmd dom hen hdom h
    unfold set_policy build_set_policy at h
    rw [show policy_byte0 (normalize_policy p) = .ok (dom ||| 0x10) from by
      simp [policy_byte0, normalize_policy, hen, hdom]] at h
    cases h2 : policy_byte2 (normalize_policy p) with
    | error e => rw [h2] at h; exact absurd h (by simp)
    | ok b2 =>
      rw [h2] at h
      cases h3 : policy_byte3 (normalize_policy p) with
      | error e => rw [h3] at h; exact absurd h (by simp)
      | ok b3 =>
        rw [h3] at h
        cases h4 : pack_HIHH (policy_limit (normalize_policy p))
            (normalize_policy p).correction_time (normalize_policy p).trigger_limit
            (normalize_policy p).reporting_period with
        | error e => rw [h4] at h; exact absurd h (by simp)
        | ok packed =>
          rw [h4] at h
          injection h with h5
          subst h5
          rfl

theorem claim_C1_witness :
    ((set_policy c1Policy).2.toOption.getD []).get? 5 = some "0x00" ∧
    ((set_policy c2Policy).2.toOption.getD []).get? 5 = some (hex02X (0x00 ||| 0x10)) :=
  ⟨claim_C1.1 c1Policy ((set_policy c1Policy).2.toOption.getD []) rfl (by decide),
   claim_C1.2 c2Policy ((set_policy c2Policy).2.toOption.getD []) 0x00 rfl rfl (by decide)⟩

theorem int_base16_hex02X : ∀ n, n < 256 → int_base16 (hex02X n) = .ok n := by decide

theorem int_base16_byteHexL : ∀ n, n < 256 →
    int_base16 ("0x" ++ String.mk (byteHexL n)) = .ok n := by decide

theorem domain_byte0_roundtrip (k : String) (dom : Nat)
    (h : table_get INTEL_NM_DOMAINS k = .ok dom) :
    rev_get INTEL_NM_DOMAINS ((dom ||| 0x10) &&& 0x0F) = .ok k ∧ (dom ||| 0x10) < 256 := by
  have hm := table_get_ok_mem h
  simp [INTEL_NM_DOMAINS] at hm
  rcases hm with ⟨rfl, rfl⟩ | ⟨rfl, rfl⟩ | ⟨rfl, rfl⟩ | ⟨rfl, rfl⟩ | ⟨rfl, rfl⟩ <;>
    exact ⟨by decide, by decide⟩

theorem byte2_roundtrip (kt kc ks : String) (t c s : Nat)
    (ht : table_get INTEL_NM_TRIGGERS kt = .ok t)
    (hc : table_get INTEL_NM_CPU_CORRECTION kc = .ok c)
    (hs : table_get INTEL_NM_STORAGE ks = .ok s) :
    rev_get INTEL_NM_TRIGGERS ((t ||| c ||| s ||| 0x10) &&& 0x0F) = .ok kt ∧
    rev_get INTEL_NM_CPU_CORRECTION ((t ||| c ||| s ||| 0x10) &&& 0x60) = .ok kc ∧
    rev_get INTEL_NM_STORAGE ((t ||| c ||| s ||| 0x10) &&& 0x80) = .ok ks ∧
    (t ||| c ||| s ||| 0x10) < 256 := by
  have hmt := table_get_ok_mem ht
  have hmc := table_get_ok_mem hc
  have hms := table_get_ok_mem hs
  simp [INTEL_NM_TRIGGERS] at hmt
  simp [INTEL_NM_CPU_CORRECTION] at hmc
  simp [INTEL_NM_STORAGE] at hms
  rcases hmt with ⟨rfl, rfl⟩ | ⟨rfl, rfl⟩ | ⟨rfl, rfl⟩ | ⟨rfl, rfl⟩ | ⟨rfl, rfl⟩ <;>
    rcases hmc with ⟨rfl, rfl⟩ | ⟨rfl, rfl⟩ | ⟨rfl, rfl⟩ <;>
    rcases hms with ⟨rfl, rfl⟩ | ⟨rfl, rfl⟩ <;>
    exact ⟨by decide, by decide, by decide, by decide⟩

theorem byte3_roundtrip (ka kp : String) (a d : Nat)
    (ha : table_get INTEL_NM_ACTIONS ka = .ok a)
    (hp : table_get INTEL_NM_POWER_DOMAIN kp = .ok d) :
    rev_get INTEL_NM_ACTIONS ((a ||| d) &&& 0x01) = .ok ka ∧
    rev_get INTEL_NM_POWER_DOMAIN ((a ||| d) &&& 0x80) = .ok kp ∧
    (a ||| d) < 256 := by
  have hma := table_get_ok_mem ha
  have hmp := table_get_ok_mem hp
  simp [INTEL_NM_ACTIONS] at hma
  simp [INTEL_NM_POWER_DOMAIN] at hmp
  rcases hma with ⟨rfl, rfl⟩ | ⟨rfl, rfl⟩ <;>
    rcases hmp with ⟨rfl, rfl⟩ | ⟨rfl, rfl⟩ <;>
    exact ⟨by decide, by decide, by decide⟩

theorem raw_to_int_cons_ok (s : String) (v : Nat) (rest : List String) (vs : List Nat)
    (h1 : int_base16 s = .ok v) (h2 : raw_to_int rest = .ok vs) :
    raw_to_int (s :: rest) = .ok (v :: vs) := by
  unfold raw_to_int
  rw [h1, h2]

theorem raw_to_int_hexarray (bs : List Nat) (hb : ∀ b ∈ bs, b < 256) :
    raw_to_int (hexarray bs) = .ok bs := by
  induction bs with
  | nil => rfl
  | cons b t ih =>
    have hb0 : b < 256 := hb b (by simp)
    show raw_to_int (("0x" ++ String.mk (byteHexL b)) :: hexarray t) = _
    rw [raw_to_int_cons_ok _ b _ t (int_base16_byteHexL b hb0)
      (ih (fun x hx => hb x (by simp [hx])))]

theorem unpack_pack (a b c d : Nat) (l : List Nat)
    (h : pack_HIHH a b c d = .ok l) :
    unpack_HIHH l = .ok (a, b, c, d) ∧ (∀ x ∈ l, x < 256) ∧ l.length = 10 := by
  unfold pack_HIHH at h
  by_cases hr : a < 65536 ∧ b < 4294967296 ∧ c < 65536 ∧ d < 65536
  · rw [if_pos hr] at h
    injection h with h2
    subst h2
    obtain ⟨ha, hb, hc, hd⟩ := hr
    refine ⟨?_, ?_, rfl⟩
    · unfold unpack_HIHH
      rw [if_pos (show (le2 a ++ le4 b ++ le2 c ++ le2 d).length = 10 from rfl)]
      apply congrArg
      simp only [de2, de4, le2, le4, List.cons_append, List.nil_append,
        List.getD_cons_zero, List.getD_cons_succ, Prod.mk.injEq]
      refine ⟨?_, ?_, ?_, ?_⟩ <;> omega
    · intro x hx
      simp [le2, le4] at hx
      rcases hx with rfl | rfl | rfl | rfl | rfl | rfl | rfl | rfl | rfl | rfl <;> omega
  · rw [if_neg hr] at h
    exact absurd h (by simp)

theorem to_bytes_ok (l : List Nat) (h : ∀ x ∈ l, x < 256) : to_bytes l = .ok l := by
  unfold to_bytes
  rw [if_pos]
  exact List.all_eq_true.mpr (fun x hx => decide_eq_true (h x hx))

/-- Claim C2 (amended): for a valid enabled policy with a plain integer
target limit in range, parse_policy applied to the set_policy output with
the two leading protocol bytes and the policy-id byte removed reproduces
domain_id, policy_trigger, action, power_domain, target_limit,
correction_time, reporting_period, and trigger_limit as sent (zeroed for
none/boot triggers); policy_id itself is absent from parse_policy's output. -/
theorem claim_C2 (p : Policy) (dom trig corr stor act pd n : Nat)
    (hdom : table_get INTEL_NM_DOMAINS p.domain_id = .ok dom)
    (htrig : table_get INTEL_NM_TRIGGERS p.policy_trigger = .ok trig)
    (hcorr : table_get INTEL_NM_CPU_CORRECTION
      (p.cpu_power_correction.getD "auto") = .ok corr)
    (hstor : table_get INTEL_NM_STORAGE (p.storage.getD "persistent") = .ok stor)
    (hact : table_get INTEL_NM_ACTIONS p.action = .ok act)
    (hpd : table_get INTEL_NM_POWER_DOMAIN p.power_domain = .ok pd)
    (htl : p.target_limit = .plain n) (hn : n < 65536)
    (hct : p.correction_time < 4294967296)
    (htrl : p.trigger_limit < 65536)
    (hrp : p.reporting_period < 65536)
    (hen : p.enable = true) :
    ∃ cmd parsed, (set_policy p).2 = .ok cmd ∧
      parse_policy ((cmd.drop 2).eraseIdx 4) = .ok parsed ∧
      parsed.domain_id = p.domain_id ∧
      parsed.policy_trigger = p.policy_trigger ∧
      parsed.cpu_power_correction = p.cpu_power_correction.getD "auto" ∧
      parsed.storage = p.storage.getD "persistent" ∧
      parsed.action = p.action ∧
      parsed.power_domain = p.power_domain ∧
      parsed.target_limit = n ∧
      parsed.correction_time = p.correction_time ∧
      parsed.trigger_limit =
        (if p.policy_trigger = "none" ∨ p.policy_trigger = "boot" then 0
         else p.trigger_limit) ∧
      parsed.reporting_period = p.reporting_period := by
  have hb0 : policy_byte0 (normalize_policy p) = .ok (dom ||| 0x10) := by
    simp [policy_byte0, normalize_policy, hen, hdom]
  have hb2 : policy_byte2 (normalize_policy p) =
      .ok (trig ||| corr ||| stor ||| 0x10) := by
    simp [policy_byte2, normalize_policy, field_get, htrig, hcorr, hstor]
  have hb3 : policy_byte3 (normalize_policy p) = .ok (act ||| pd) := by
    simp [policy_byte3, normalize_policy, hact, hpd]
  have hlim : policy_limit (normalize_policy p) = n := by
    simp [policy_limit, normalize_policy, htl]
  have htrlb : (normalize_policy p).trigger_limit < 65536 := by
    show (if p.policy_trigger = "none" ∨ p.policy_trigger = "boot" then 0
      else p.trigger_limit) < 65536
    split <;> omega
  have hpk : pack_HIHH (policy_limit (normalize_policy p))
      (normalize_policy p).correction_time (normalize_policy p).trigger_limit
      (normalize_policy p).reporting_period =
      .ok (le2 n ++ le4 p.correction_time ++ le2 ((normalize_policy p).trigger_limit) ++
        le2 p.reporting_period) := by
    rw [hlim]
    show pack_HIHH n p.correction_time _ p.reporting_period = _
    unfold pack_HIHH
    rw [if_pos ⟨hn, hct, htrlb, hrp⟩]
  have hup := unpack_pack _ _ _ _ _ hpk
  have hcmd : (set_policy p).2 =
      .ok (["0x2E", "0xC1", "0x57", "0x01", "0x00"] ++
        [hex02X (dom ||| 0x10), hex02X p.policy_id,
         hex02X (trig ||| corr ||| stor ||| 0x10), hex02X (act ||| pd)] ++
        hexarray (le2 n ++ le4 p.correction_time ++
          le2 ((normalize_policy p).trigger_limit) ++ le2 p.reporting_period)) := by
    show build_set_policy (normalize_policy p) = _
    unfold build_set_policy
    rw [hb0, hb2, hb3, hpk]
    rfl
  obtain ⟨hd0, hd0b⟩ := domain_byte0_roundtrip _ _ hdom
  obtain ⟨ht2, hc2, hs2, hb2b⟩ := byte2_roundtrip _ _ _ _ _ _ htrig hcorr hstor
  obtain ⟨ha3, hp3, hb3b⟩ := byte3_roundtrip _ _ _ _ hact hpd
  have hri : raw_to_int ((((["0x2E", "0xC1", "0x57", "0x01", "0x00"] ++
        [hex02X (dom ||| 0x10), hex02X p.policy_id,
         hex02X (trig ||| corr ||| stor ||| 0x10), hex02X (act ||| pd)] ++
        hexarray (le2 n ++ le4 p.correction_time ++
          le2 ((normalize_policy p).trigger_limit) ++
          le2 p.reporting_period)) : List String).drop 2).eraseIdx 4) =
      .ok ([0x57, 0x01, 0x00, dom ||| 0x10, trig ||| corr ||| stor ||| 0x10,
        act ||| pd] ++
        (le2 n ++ le4 p.correction_time ++ le2 ((normalize_policy p).trigger_limit) ++
          le2 p.reporting_period)) := by
    show raw_to_int ("0x57" :: "0x01" :: "0x00" :: hex02X (dom ||| 0x10) ::
      hex02X (trig ||| corr ||| stor ||| 0x10) :: hex02X (act ||| pd) ::
      hexarray (le2 n ++ le4 p.correction_time ++
        le2 ((normalize_policy p).trigger_limit) ++ le2 p.reporting_period)) = _
    rw [raw_to_int_cons_ok _ 0x57 _ _ (by decide)
      (raw_to_int_cons_ok _ 0x01 _ _ (by decide)
        (raw_to_int_cons_ok _ 0x00 _ _ (by decide)
          (raw_to_int_cons_ok _ (dom ||| 0x10) _ _ (int_base16_hex02X _ hd0b)
            (raw_to_int_cons_ok _ (trig ||| corr ||| stor ||| 0x10) _ _
              (int_base16_hex02X _ hb2b)
              (raw_to_int_cons_ok _ (act ||| pd) _ _ (int_base16_hex02X _ hb3b)
                (raw_to_int_hexarray _ hup.2.1))))))]
    rfl
  refine ⟨_, { domain_id := p.domain_id
               enabled := ((dom ||| 0x10) &&& 0x10) != 0
               per_domain_enabled := ((dom ||| 0x10) &&& 0x20) != 0
               global_enabled := ((dom ||| 0x10) &&& 0x40) != 0
               created_by_nm := !(((dom ||| 0x10) &&& 0x80) != 0)
               policy_trigger := p.policy_trigger
               power_policy := ((trig ||| corr ||| stor ||| 0x10) &&& 0x10) != 0
               cpu_power_correction := p.cpu_power_correction.getD "auto"
               storage := p.storage.getD "persistent"
               action := p.action
               power_domain := p.power_domain
               target_limit := policy_limit (normalize_policy p)
               correction_time := (normalize_policy p).correction_time
               trigger_limit := (normalize_policy p).trigger_limit
               reporting_period := (normalize_policy p).reporting_period },
          hcmd, ?_, rfl, rfl, rfl, rfl, rfl, rfl, hlim, rfl, rfl, rfl⟩
  simp only [parse_policy, hri]
  simp only [list_item, List.cons_append, List.get?]
  simp only [List.drop_succ_cons, List.drop_zero, List.nil_append,
    hd0, ht2, hc2, hs2, ha3, hp3, to_bytes_ok _ hup.2.1, hup.1]

/-- Claim C2 counterexample: parse_policy applied directly to the byte
sequence produced by set_policy raises a wrong-length decode failure (the
command carries netfn, opcode and a policy-id byte that the response layout
parse_policy expects does not), so the round trip as stated fails. -/
theorem claim_C2_counterexample :
    (set_policy c2Policy).2.toOption.map (handle_parsing_error parse_policy) =
      some (.error DecodeKind.wrongLength) := by decide

theorem claim_C2_witness :
    ∃ cmd parsed, (set_policy c2Policy).2 = .ok cmd ∧
      parse_policy ((cmd.drop 2).eraseIdx 4) = .ok parsed ∧
      parsed.domain_id = c2Policy.domain_id ∧
      parsed.policy_trigger = c2Policy.policy_trigger ∧
      parsed.cpu_power_correction = c2Policy.cpu_power_correction.getD "auto" ∧
      parsed.storage = c2Policy.storage.getD "persistent" ∧
      parsed.action = c2Policy.action ∧
      parsed.power_domain = c2Policy.power_domain ∧
      parsed.target_limit = 100 ∧
      parsed.correction_time = c2Policy.correction_time ∧
      parsed.trigger_limit =
        (if c2Policy.policy_trigger = "none" ∨ c2Policy.policy_trigger = "boot" then 0
         else c2Policy.trigger_limit) ∧
      parsed.reporting_period = c2Policy.reporting_period :=
  claim_C2 c2Policy 0 2 0 0 0 0 100 rfl rfl rfl rfl rfl rfl rfl (by decide)
    (by decide) (by decide) (by decide) rfl
